import Mathlib

/-!
Verification of the interactive exploration engine of `linewise`
(`src/interactive.rs`): the field type model, the locked-field registry,
the frequency analyzer, record-cursor movement, preset text parsing and
the modal key dispatcher.  All definitions below are shallow embeddings
of the corresponding Rust items; machine integers are modelled as `Nat`
with explicit `% 2 ^ 64` where the Rust code truncates.
-/

namespace Linewise

/-- Embedding of `DataType` (src/interactive.rs).  The closed set of
interpretations available at the cursor. -/
inductive DataType where
  | u8 | u16le | u16be | u32le | u32be | varint | hex | binary | ascii
deriving DecidableEq, Repr

/-- Embedding of `DataType::all`: the fixed cyclic enumeration order. -/
def DataType.all : List DataType :=
  [.u8, .u16le, .u16be, .u32le, .u32be, .varint, .hex, .binary, .ascii]

/-- Embedding of `DataType::name`. -/
def DataType.name : DataType → String
  | .u8 => "u8"
  | .u16le => "u16le"
  | .u16be => "u16be"
  | .u32le => "u32le"
  | .u32be => "u32be"
  | .varint => "varint"
  | .hex => "hex"
  | .binary => "binary"
  | .ascii => "ascii"

/-- Embedding of `DataType::byte_size`; `none` for the variable-width varint. -/
def DataType.byte_size : DataType → Option Nat
  | .u8 | .hex | .binary | .ascii => some 1
  | .u16le | .u16be => some 2
  | .u32le | .u32be => some 4
  | .varint => none

/-- Embedding of `DataType::next`: cycle forward through `all`. -/
def DataType.next (t : DataType) : DataType :=
  let all := DataType.all
  let idx := all.findIdx (fun x => x == t)
  all.getD ((idx + 1) % all.length) .u8

/-- Embedding of `DataType::prev`: cycle backward through `all`. -/
def DataType.prev (t : DataType) : DataType :=
  let all := DataType.all
  let idx := all.findIdx (fun x => x == t)
  all.getD ((idx + all.length - 1) % all.length) .u8

/-- Embedding of `DataType::from_name`. -/
def DataType.from_name : String → Option DataType
  | "u8" => some .u8
  | "u16le" => some .u16le
  | "u16be" => some .u16be
  | "u32le" => some .u32le
  | "u32be" => some .u32be
  | "varint" => some .varint
  | "hex" => some .hex
  | "binary" => some .binary
  | "ascii" => some .ascii
  | _ => none

/-- Loop body of `DataType::decode_varint`: `value` and `shift` are the
running accumulator and bit position; the Rust `u64` accumulator is
modelled by truncating each shifted chunk with `% 2 ^ 64`. -/
def decodeVarintLoop : List Nat → Nat → Nat → String
  | [], _, _ => ""
  | b :: rest, value, shift =>
    if 64 ≤ shift then ""
    else
      let value' := value ||| (((b &&& 127) <<< shift) % 2 ^ 64)
      if b &&& 128 = 0 then toString value'
      else decodeVarintLoop rest value' (shift + 7)

/-- Embedding of `DataType::decode_varint`. -/
def DataType.decode_varint (data : List Nat) : String :=
  decodeVarintLoop data 0 0

/-- Helper for `str::split_whitespace`: split a character list into
maximal runs of non-whitespace characters. -/
def wordsAux : List Char → List Char → List (List Char)
  | [], [] => []
  | [], acc => [acc.reverse]
  | c :: cs, acc =>
    if c.isWhitespace then
      match acc with
      | [] => wordsAux cs []
      | _ => acc.reverse :: wordsAux cs []
    else wordsAux cs (c :: acc)

/-- Embedding of Rust's `str::split_whitespace` (collected to a list). -/
def splitWhitespace (s : String) : List String :=
  (wordsAux s.toList []).map fun l => String.mk l

/-- Helper for `str::lines`: split a character list at every newline,
keeping empty segments (like `split('\n')`). -/
def splitNl : List Char → List (List Char)
  | [] => [[]]
  | c :: cs =>
    if c = '\n' then [] :: splitNl cs
    else
      match splitNl cs with
      | s :: rest => (c :: s) :: rest
      | [] => [[c]]

/-- Strip one trailing carriage return, as `str::lines` does per line. -/
def stripCr (l : List Char) : List Char :=
  match l.reverse with
  | '\r' :: rest => rest.reverse
  | _ => l

/-- Embedding of Rust's `str::lines` (collected to a list): no segment is
produced after a trailing newline, and a trailing carriage return is
removed from each line. -/
def rustLines (s : String) : List String :=
  let segs := splitNl s.toList
  let segs := if segs.getLast? = some [] then segs.dropLast else segs
  segs.map fun l => String.mk (stripCr l)

/-- Embedding of `str::parse::<usize>()`: an optional leading plus sign,
then one or more decimal digits, rejecting values past `2 ^ 64`
(64-bit `usize` overflow). -/
def parseUsize (s : String) : Option Nat :=
  let cs := s.toList
  let cs := match cs with
    | '+' :: rest => rest
    | _ => cs
  if cs = [] then none
  else if cs.all Char.isDigit then
    let v := cs.foldl (fun a c => a * 10 + (c.toNat - 48)) 0
    if v < 2 ^ 64 then some v else none
  else none

/-- Embedding of `LockedField` (src/interactive.rs). -/
structure LockedField where
  byte_offset : Nat
  byte_length : Nat
  data_type : DataType
deriving DecidableEq, Repr

/-- Comparison key used by `lock_current` and `load_preset` when they
re-sort the registry (`sort_by_key(|f| f.byte_offset)`). -/
def lockedLe (a b : LockedField) : Prop := a.byte_offset ≤ b.byte_offset

instance : DecidableRel lockedLe := fun a b => Nat.decLe _ _

instance : IsTotal LockedField lockedLe := ⟨fun a b => Nat.le_total _ _⟩

instance : IsTrans LockedField lockedLe := ⟨fun _ _ _ => Nat.le_trans⟩

/-- Rust's stable `sort_by_key(|f| f.byte_offset)`, modelled by the
(stable) insertion sort under `lockedLe`. -/
def sortByOffset (l : List LockedField) : List LockedField :=
  List.insertionSort lockedLe l

/-- Subset of `ratatui` colors produced by `get_frequency_color` and the
styling code. -/
inductive Color where
  | red | yellow | green | cyan | blue | darkGray
deriving DecidableEq, Repr

/-- Embedding of the `crossterm` key codes the dispatcher distinguishes. -/
inductive KeyCode where
  | char (c : Char)
  | tab | backTab | down | up | pageDown | pageUp
  | enter | esc | backspace
deriving DecidableEq, Repr

/-- Embedding of the `crossterm` modifier sets the dispatcher matches on
(`NONE`, `CONTROL`, or anything else such as `SHIFT`). -/
inductive KeyModifiers where
  | none | control | shift
deriving DecidableEq, Repr

/-- Embedding of `ToggleTarget`. -/
inductive ToggleTarget where
  | frequency | wrap | showLocks | showGutter
deriving DecidableEq, Repr

/-- Embedding of `InteractiveState` (src/interactive.rs), with records as
lists of byte values. -/
structure InteractiveState where
  records : List (List Nat)
  current_record : Nat
  field_offset : Nat
  current_field : Nat
  current_type : DataType
  locked_fields : List LockedField
  scroll_offset : Nat
  visible_records : Nat
  message : Option String
  command_mode : Bool
  command_buffer : String
  current_preset : Option String
  count_buffer : String
  frequency_mode : Bool
  byte_frequencies : List (List Nat)
  pending_g : Bool
  pending_y : Bool
  pending_yo : Bool
  pending_open_bracket : Bool
  pending_close_bracket : Bool
  wrap_mode : Bool
  horizontal_scroll : Nat
  terminal_width : Nat
  show_locks : Bool
  show_gutter : Bool
deriving DecidableEq, Repr

namespace InteractiveState

/-- Embedding of `InteractiveState::new`. -/
def new (records : List (List Nat)) : InteractiveState where
  records := records
  current_record := 0
  field_offset := 0
  current_field := 0
  current_type := .u8
  locked_fields := []
  scroll_offset := 0
  visible_records := 10
  message := none
  command_mode := false
  command_buffer := ""
  current_preset := none
  count_buffer := ""
  frequency_mode := false
  byte_frequencies := []
  pending_g := false
  pending_y := false
  pending_yo := false
  pending_open_bracket := false
  pending_close_bracket := false
  wrap_mode := false
  horizontal_scroll := 0
  terminal_width := 80
  show_locks := true
  show_gutter := true

/-- Embedding of `current_field_byte`. -/
def current_field_byte (s : InteractiveState) : Nat :=
  let type_size := s.current_type.byte_size.getD 1
  s.field_offset + s.current_field * type_size

/-- Embedding of `field_count`. -/
def field_count (s : InteractiveState) (record_len : Nat) : Nat :=
  let type_size := s.current_type.byte_size.getD 1
  if record_len ≤ s.field_offset then 0
  else (record_len - s.field_offset) / type_size

/-- Embedding of `clear_pending`. -/
def clear_pending (s : InteractiveState) : InteractiveState :=
  { s with pending_g := false, pending_y := false, pending_yo := false,
           pending_open_bracket := false, pending_close_bracket := false }

/-- Embedding of `max_fields`. -/
def max_fields (s : InteractiveState) : Nat :=
  s.field_count (s.records.getD s.current_record []).length

/-- Embedding of `get_count`: value part (`count_buffer.parse::<usize>().unwrap_or(1).max(1)`).
The Rust `usize` parse accepts an optional leading plus sign, digits only,
and fails on overflow past `2 ^ 64`. -/
def get_count_value (s : InteractiveState) : Nat :=
  max ((Linewise.parseUsize s.count_buffer).getD 1) 1

/-- Embedding of `lock_current`: overlap check against every registered
interval, record-length check, then push and stable re-sort by offset. -/
def lock_current (s : InteractiveState) (count : Nat) : InteractiveState :=
  let byte_off := s.current_field_byte
  let type_size := s.current_type.byte_size.getD 1
  let byte_len := type_size * count
  let overlaps := s.locked_fields.any fun f =>
    let f_end := f.byte_offset + f.byte_length
    let new_end := byte_off + byte_len
    !(decide (new_end ≤ f.byte_offset) || decide (f_end ≤ byte_off))
  if overlaps then
    { s with message := some "Cannot lock: overlaps with existing field" }
  else
    let record_len := (s.records.getD s.current_record []).length
    if record_len < byte_off + byte_len then
      { s with message := some ("Cannot lock: " ++ toString byte_len ++
          " bytes needed, only " ++ toString (record_len - byte_off) ++ " available") }
    else
      { s with
        locked_fields :=
          sortByOffset (s.locked_fields ++ [⟨byte_off, byte_len, s.current_type⟩]),
        message := some (if 1 < count then
            "Locked " ++ toString count ++ "x" ++ s.current_type.name ++ " (" ++
              toString byte_len ++ " bytes) at byte " ++ toString byte_off
          else
            "Locked " ++ s.current_type.name ++ " at byte " ++ toString byte_off) }

/-- Embedding of `unlock_at_cursor`: retain the fields whose interval
does not contain the cursor byte. -/
def unlock_at_cursor (s : InteractiveState) : InteractiveState :=
  let byte_off := s.current_field_byte
  let before_len := s.locked_fields.length
  let kept := s.locked_fields.filter fun f =>
    let f_end := f.byte_offset + f.byte_length
    !(decide (f.byte_offset ≤ byte_off) && decide (byte_off < f_end))
  let s' := { s with locked_fields := kept }
  if kept.length < before_len then { s' with message := some "Unlocked field" } else s'

/-- Embedding of `move_to_next_field`. -/
def move_to_next_field (s : InteractiveState) : InteractiveState :=
  if s.current_field + 1 < s.max_fields then
    { s with current_field := s.current_field + 1 }
  else s

/-- Embedding of `move_to_prev_field`. -/
def move_to_prev_field (s : InteractiveState) : InteractiveState :=
  if 0 < s.current_field then { s with current_field := s.current_field - 1 } else s

/-- Embedding of `shift_offset_forward`. -/
def shift_offset_forward (s : InteractiveState) : InteractiveState :=
  let max_offset := (s.records.getD s.current_record []).length
  let type_size := s.current_type.byte_size.getD 1
  if s.field_offset + 1 < min type_size max_offset then
    { s with field_offset := s.field_offset + 1 }
  else s

/-- Embedding of `shift_offset_backward`. -/
def shift_offset_backward (s : InteractiveState) : InteractiveState :=
  if 0 < s.field_offset then { s with field_offset := s.field_offset - 1 } else s

/-- Embedding of `move_down` (`j`): clamp to the last record and pull the
scroll window along when the cursor leaves its bottom edge. -/
def move_down (s : InteractiveState) (count : Nat) : InteractiveState :=
  let max_idx := s.records.length - 1
  let cur := min (s.current_record + count) max_idx
  let scroll :=
    if s.scroll_offset + s.visible_records ≤ cur then cur - (s.visible_records - 1)
    else s.scroll_offset
  { s with current_record := cur, scroll_offset := scroll }

/-- Embedding of `move_up` (`k`). -/
def move_up (s : InteractiveState) (count : Nat) : InteractiveState :=
  let cur := s.current_record - count
  let scroll := if cur < s.scroll_offset then cur else s.scroll_offset
  { s with current_record := cur, scroll_offset := scroll }

/-- Embedding of `page_down` (Ctrl-d / PageDown). -/
def page_down (s : InteractiveState) : InteractiveState :=
  let jump := s.visible_records / 2
  let cur := min (s.current_record + jump) (s.records.length - 1)
  let scroll :=
    if s.scroll_offset + s.visible_records ≤ cur then cur - (s.visible_records - 1)
    else s.scroll_offset
  { s with current_record := cur, scroll_offset := scroll }

/-- Embedding of `page_up` (Ctrl-u / PageUp). -/
def page_up (s : InteractiveState) : InteractiveState :=
  let jump := s.visible_records / 2
  let cur := s.current_record - jump
  let scroll := if cur < s.scroll_offset then cur else s.scroll_offset
  { s with current_record := cur, scroll_offset := scroll }

/-- Embedding of `jump_to_start` (`gg`). -/
def jump_to_start (s : InteractiveState) : InteractiveState :=
  { s with current_record := 0, scroll_offset := 0,
           message := some "Jumped to first record" }

/-- Embedding of `jump_to_end` (`G`). -/
def jump_to_end (s : InteractiveState) : InteractiveState :=
  let cur := s.records.length - 1
  let scroll :=
    if s.visible_records ≤ cur then cur - (s.visible_records - 1) else s.scroll_offset
  { s with current_record := cur, scroll_offset := scroll,
           message := some "Jumped to last record" }

end InteractiveState

/-- Length of the longest record (`records.iter().map(|r| r.len()).max().unwrap_or(0)`). -/
def maxRecordLen (recs : List (List Nat)) : Nat :=
  recs.foldr (fun r m => max r.length m) 0

/-- Increment one histogram cell of one position row
(`self.byte_frequencies[pos][byte] += 1`). -/
def bumpPos (row : List Nat) (b : Nat) : List Nat :=
  row.set b (row.getD b 0 + 1)

/-- Apply `bumpPos` to the row of one byte position. -/
def bumpTable (t : List (List Nat)) (pos b : Nat) : List (List Nat) :=
  t.set pos (bumpPos (t.getD pos []) b)

/-- Inner loop of `compute_frequencies`: count every byte of one record,
starting at position `pos`. -/
def addRecord (t : List (List Nat)) : List Nat → Nat → List (List Nat)
  | [], _ => t
  | b :: rest, pos => addRecord (bumpTable t pos b) rest (pos + 1)

/-- Embedding of `compute_frequencies` as a table: one 256-cell histogram
per byte position of the longest record. -/
def freqTable (recs : List (List Nat)) : List (List Nat) :=
  recs.foldl (fun t r => addRecord t r 0) (List.replicate (maxRecordLen recs) (List.replicate 256 0))

namespace InteractiveState

/-- Embedding of `compute_frequencies` (state level). -/
def compute_frequencies (s : InteractiveState) : InteractiveState :=
  { s with byte_frequencies := freqTable s.records }

/-- Embedding of `get_frequency_color`: percentage buckets over the
per-position histogram. -/
def get_frequency_color (s : InteractiveState) (pos byte : Nat) : Color :=
  if s.byte_frequencies.length ≤ pos then .darkGray
  else
    let freq := (s.byte_frequencies.getD pos []).getD byte 0
    let total := s.records.length
    if total = 0 then .darkGray
    else
      let pct := freq * 100 / total
      if 80 ≤ pct ∧ pct ≤ 100 then .red
      else if 60 ≤ pct ∧ pct ≤ 79 then .yellow
      else if 40 ≤ pct ∧ pct ≤ 59 then .green
      else if 20 ≤ pct ∧ pct ≤ 39 then .cyan
      else .blue

/-- Read the toggle flag named by a `ToggleTarget`. -/
def toggleGet (s : InteractiveState) : ToggleTarget → Bool
  | .frequency => s.frequency_mode
  | .wrap => s.wrap_mode
  | .showLocks => s.show_locks
  | .showGutter => s.show_gutter

/-- Write the toggle flag named by a `ToggleTarget`. -/
def toggleSet (s : InteractiveState) : ToggleTarget → Bool → InteractiveState
  | .frequency, v => { s with frequency_mode := v }
  | .wrap, v => { s with wrap_mode := v }
  | .showLocks, v => { s with show_locks := v }
  | .showGutter, v => { s with show_gutter := v }

/-- Status message texts of `handle_toggle`. -/
def toggleOnMsg : ToggleTarget → String
  | .frequency => "Frequency mode ON"
  | .wrap => "Wrap ON"
  | .showLocks => "Locks ON"
  | .showGutter => "Gutter ON"

/-- Status message texts of `handle_toggle`. -/
def toggleOffMsg : ToggleTarget → String
  | .frequency => "Frequency mode OFF"
  | .wrap => "Wrap OFF"
  | .showLocks => "Locks OFF"
  | .showGutter => "Gutter OFF"

/-- Embedding of `handle_toggle`: consume a pending `yo` / `[` / `]`
prefix by toggling, forcing on, or forcing off the named flag; returns
whether a toggle prefix was matched. -/
def handle_toggle (s : InteractiveState) (t : ToggleTarget) : Bool × InteractiveState :=
  if s.pending_yo then
    let v := !(s.toggleGet t)
    let s' := (s.toggleSet t v)
    let s' := { s' with message := some (if v then toggleOnMsg t else toggleOffMsg t) }
    (true, { s'.clear_pending with count_buffer := "" })
  else if s.pending_open_bracket then
    let s' := { s.toggleSet t true with message := some (toggleOnMsg t) }
    (true, { s'.clear_pending with count_buffer := "" })
  else if s.pending_close_bracket then
    let s' := { s.toggleSet t false with message := some (toggleOffMsg t) }
    (true, { s'.clear_pending with count_buffer := "" })
  else (false, s)

/-- Body of the `j` / Down arm of `handle_key`. -/
def key_move_down (s : InteractiveState) : InteractiveState :=
  let s := { s with pending_g := false }
  let count := s.get_count_value
  let s := { s with count_buffer := "" }
  s.move_down count

/-- Body of the `k` / Up arm of `handle_key`. -/
def key_move_up (s : InteractiveState) : InteractiveState :=
  let s := { s with pending_g := false }
  let count := s.get_count_value
  let s := { s with count_buffer := "" }
  s.move_up count

/-- Body of the Ctrl-d / PageDown arm of `handle_key`. -/
def key_page_down (s : InteractiveState) : InteractiveState :=
  ({ s with pending_g := false, count_buffer := "" }).page_down

/-- Body of the Ctrl-u / PageUp arm of `handle_key`. -/
def key_page_up (s : InteractiveState) : InteractiveState :=
  ({ s with pending_g := false, count_buffer := "" }).page_up

/-- Character dispatch of `handle_key`, in the source's match-arm order. -/
def handle_char (s : InteractiveState) (c : Char) (m : KeyModifiers) : InteractiveState :=
  if c = ':' then
    { s with command_mode := true, command_buffer := "", message := none }
  else if c = 'h' ∧ m = .none then
    s.clear_pending.shift_offset_backward
  else if c = 'b' ∧ m = .none then
    s.clear_pending.move_to_prev_field
  else if ('1' ≤ c ∧ c ≤ '9') ∧ m = .none then
    { s.clear_pending with count_buffer := s.count_buffer.push c }
  else if c = '0' ∧ m = .none then
    if s.count_buffer ≠ "" then { s with count_buffer := s.count_buffer.push '0' }
    else { s.clear_pending with current_field := 0 }
  else if c = '$' ∧ m = .none then
    { s.clear_pending with count_buffer := "", current_field := s.max_fields - 1 }
  else if c = 'j' ∧ m = .none then
    s.key_move_down
  else if c = 'k' ∧ m = .none then
    s.key_move_up
  else if c = 'd' ∧ m = .control then
    s.key_page_down
  else if c = 'u' ∧ m = .control then
    s.key_page_up
  else if c = 'L' then
    let s := { s with pending_g := false }
    let count := s.get_count_value
    let s := { s with count_buffer := "" }
    s.lock_current count
  else if c = 'U' then
    ({ s with pending_g := false, count_buffer := "" }).unlock_at_cursor
  else if c = 'G' then
    ({ s.clear_pending with count_buffer := "" }).jump_to_end
  else if c = 'y' ∧ m = .none then
    { s.clear_pending with pending_y := true }
  else if c = 'o' ∧ m = .none then
    if s.pending_y then { s with pending_y := false, pending_yo := true }
    else s.clear_pending
  else if c = '[' ∧ m = .none then
    { s.clear_pending with pending_open_bracket := true }
  else if c = ']' ∧ m = .none then
    { s.clear_pending with pending_close_bracket := true }
  else if c = 'f' ∧ m = .none then
    let (matched, s') := s.handle_toggle .frequency
    if matched then
      if s'.frequency_mode then s'.compute_frequencies else s'
    else s.clear_pending
  else if c = 'w' ∧ m = .none then
    let (matched, s') := s.handle_toggle .wrap
    if matched then { s' with horizontal_scroll := 0 }
    else s.clear_pending.move_to_next_field
  else if c = 'l' ∧ m = .none then
    let (matched, s') := s.handle_toggle .showLocks
    if matched then s'
    else s.clear_pending.shift_offset_forward
  else if c = 'g' ∧ m = .none then
    let (matched, s') := s.handle_toggle .showGutter
    if matched then s'
    else if s.pending_g then
      ({ s.clear_pending with count_buffer := "" }).jump_to_start
    else { s.clear_pending with pending_g := true }
  else
    { s.clear_pending with count_buffer := "" }

/-- Embedding of `handle_key`: normal-mode key dispatch. -/
def handle_key (s : InteractiveState) (code : KeyCode) (m : KeyModifiers) : InteractiveState :=
  match code, m with
  | .char c, mods => s.handle_char c mods
  | .tab, .none =>
    { s with current_type := s.current_type.next,
             message := some ("Type: " ++ s.current_type.next.name) }
  | .backTab, _ =>
    { s with current_type := s.current_type.prev,
             message := some ("Type: " ++ s.current_type.prev.name) }
  | .down, _ => s.key_move_down
  | .up, _ => s.key_move_up
  | .pageDown, _ => s.key_page_down
  | .pageUp, _ => s.key_page_up
  | _, _ => { s.clear_pending with count_buffer := "" }

end InteractiveState

/-- Parse loop of `load_preset` over the lines of the preset file: lines
with at least three whitespace tokens must parse as
`<offset> <length> <type>` (first failure aborts with the source's error
text); shorter lines are skipped. -/
def parse_preset_lines : List String → Except String (List LockedField)
  | [] => .ok []
  | l :: rest =>
    let parts := splitWhitespace l
    if 3 ≤ parts.length then
      match parseUsize (parts.getD 0 "") with
      | none => .error "Invalid offset"
      | some byte_offset =>
        match parseUsize (parts.getD 1 "") with
        | none => .error "Invalid length"
        | some byte_length =>
          match DataType.from_name (parts.getD 2 "") with
          | none => .error "Invalid type"
          | some data_type =>
            (parse_preset_lines rest).map fun fs => ⟨byte_offset, byte_length, data_type⟩ :: fs
    else parse_preset_lines rest

/-- State-level effect of `load_preset` on already-read file content: the
registry is replaced (and re-sorted by offset) only when every line
parses; any parse error leaves the state untouched. -/
def InteractiveState.load_preset_content (s : InteractiveState) (content : String) :
    InteractiveState :=
  match parse_preset_lines (rustLines content) with
  | .error _ => s
  | .ok fields => { s with locked_fields := sortByOffset fields }

/-- The text `save_preset` writes for a registry: a comment header, one
`<offset> <length> <type>` line per field, and a commented detection-rules
section. -/
def save_preset_content (fields : List LockedField) : String :=
  "# Locked fields: offset length type\n" ++
  String.join (fields.map fun f =>
    toString f.byte_offset ++ " " ++ toString f.byte_length ++ " " ++ f.data_type.name ++ "\n") ++
  "\n# Detection rules (uncomment and edit to enable auto-detection)\n" ++
  "# @rules\n# byte_equals 0 33\n# min_length 30\n"

/-- A preset line that aborts the load: it has at least three whitespace
tokens but a non-integer offset, a non-integer length, or an unknown type
name. -/
def badPresetLine (l : String) : Prop :=
  3 ≤ (splitWhitespace l).length ∧
    (parseUsize ((splitWhitespace l).getD 0 "") = none ∨
     parseUsize ((splitWhitespace l).getD 1 "") = none ∨
     DataType.from_name ((splitWhitespace l).getD 2 "") = none)

instance : DecidablePred badPresetLine := fun _ =>
  inferInstanceAs (Decidable (_ ∧ _))

/-- The fields a fully-parsing preset file denotes, in file order: one
field per line with at least three tokens. -/
def goodPresetFields (lines : List String) : List LockedField :=
  lines.filterMap fun l =>
    let parts := splitWhitespace l
    if 3 ≤ parts.length then
      match parseUsize (parts.getD 0 ""), parseUsize (parts.getD 1 ""),
            DataType.from_name (parts.getD 2 "") with
      | some o, some n, some t => some ⟨o, n, t⟩
      | _, _, _ => none
    else none

/-- Little-endian base-128 value of a byte list: each byte contributes
its low seven bits at successive seven-bit positions. -/
def base128Value : List Nat → Nat
  | [] => 0
  | b :: rest => (b &&& 127) + 128 * base128Value rest

/-- A state with a two-byte-wide current type and a shifted alignment
offset of 1 (reachable by pressing `l` once on a four-byte record). -/
def c2state : InteractiveState :=
  { InteractiveState.new [[0, 0, 0, 0]] with current_type := .u16le, field_offset := 1 }

/-- One cell of the frequency table: count for byte value `b` at byte
position `p`. -/
def getEntry (t : List (List Nat)) (p b : Nat) : Nat :=
  (t.getD p []).getD b 0

/-- Number of records whose byte at position `pos` equals `b`. -/
def countOccur (recs : List (List Nat)) (pos b : Nat) : Nat :=
  (recs.filter fun r => decide (r[pos]? = some b)).length

/-- The color the engine paints byte value `b` at position `pos` for a
given record set, after frequency mode recomputes the table. -/
def freqColorOf (recs : List (List Nat)) (pos b : Nat) : Color :=
  ((InteractiveState.new recs).compute_frequencies).get_frequency_color pos b

/-- Ten two-byte records: position 0 holds `0x7E` in nine of ten records
and position 1 holds `0x01` in three of ten (its most common value). -/
def c5recs : List (List Nat) :=
  [[126, 1], [126, 1], [126, 1], [126, 2], [126, 3],
   [126, 4], [126, 5], [126, 6], [126, 7], [0, 8]]

/-- The five pending-prefix flags of a state, as one tuple
`(g, y, yo, open-bracket, close-bracket)`. -/
def prefixFlags (s : InteractiveState) : Bool × Bool × Bool × Bool × Bool :=
  (s.pending_g, s.pending_y, s.pending_yo,
   s.pending_open_bracket, s.pending_close_bracket)

/-- Number of pending-prefix flags currently set. -/
def pendingCount (s : InteractiveState) : Nat :=
  s.pending_g.toNat + s.pending_y.toNat + s.pending_yo.toNat +
    s.pending_open_bracket.toNat + s.pending_close_bracket.toNat

/-- Initial state with the pending-`y` prefix set (after pressing `y`). -/
def c8state : InteractiveState :=
  { InteractiveState.new [[0]] with pending_y := true }

/-- Record-cursor/scroll invariant of the claim: the cursor indexes a
real record and lies inside the visible window. -/
def recordCursorInv (s : InteractiveState) : Prop :=
  s.current_record < s.records.length ∧
  s.scroll_offset ≤ s.current_record ∧
  s.current_record < s.scroll_offset + s.visible_records

instance : DecidablePred recordCursorInv := fun _ =>
  inferInstanceAs (Decidable (_ ∧ _ ∧ _))

/-- State with an existing lock `[0, 2)` and the cursor at byte 0: the
next lock request overlaps. -/
def c1sReject : InteractiveState :=
  { InteractiveState.new [[0, 0, 0, 0]] with locked_fields := [⟨0, 2, .u8⟩] }

/-- State with an existing lock `[0, 1)` and the cursor on field 2 (byte
2): the next lock request is disjoint. -/
def c1sInsert : InteractiveState :=
  { InteractiveState.new [[0, 0, 0, 0]] with
      current_field := 2,
      locked_fields := [⟨0, 1, .u8⟩] }


end Linewise

namespace Linewise

/-- C2, counterexample: from a `u16le` state with `field_offset = 1`,
Shift-Tab changes `current_type` to `u8` (width 1) but leaves
`field_offset` at 1, so `field_offset` does not lie in
`[0, width(new type))` after the type change — no clamping happens. -/
theorem c2_counterexample :
    (c2state.handle_key .backTab .shift).current_type = .u8 ∧
    (c2state.handle_key .backTab .shift).field_offset = 1 ∧
    ¬ (c2state.handle_key .backTab .shift).field_offset
        < (((c2state.handle_key .backTab .shift).current_type).byte_size.getD 1) := by
  decide

/-- C2, amended: Tab (without modifiers) and Shift-Tab cycle
`current_type` forward/backward but do not modify `field_offset` at all;
no re-derivation or clamping of `field_offset` into the new type's width
range takes place on a type change. -/
theorem c2_tab_leaves_field_offset (s : InteractiveState) (m : KeyModifiers) :
    (s.handle_key .tab .none).current_type = s.current_type.next ∧
    (s.handle_key .tab .none).field_offset = s.field_offset ∧
    (s.handle_key .backTab m).current_type = s.current_type.prev ∧
    (s.handle_key .backTab m).field_offset = s.field_offset := by
  refine ⟨rfl, rfl, ?_, ?_⟩ <;> cases m <;> rfl

/-- C4, failing input: `load_preset` aborts on the very header line that
`save_preset` itself writes.  The line
`"# Locked fields: offset length type"` has six whitespace tokens, so the
parser tries `"#"` as the byte offset and the whole load fails with
`"Invalid offset"`, leaving the prior registry untouched — the comment
line is not skipped, contradicting the claim (and making presets written
by `save_preset` unloadable). -/
theorem c4_saved_header_aborts_load :
    parse_preset_lines (rustLines (save_preset_content [⟨0, 1, .u8⟩]))
      = .error "Invalid offset" ∧
    ((({ InteractiveState.new [] with
          locked_fields := [⟨5, 2, .u16le⟩] }).load_preset_content
        (save_preset_content [⟨0, 1, .u8⟩])).locked_fields = [⟨5, 2, .u16le⟩]) := by
  constructor
  · rfl
  · decide

/-- C8, counterexample: after `y` sets the pending-`y` prefix, the
unrelated key `j` does not clear it — the `j` arm resets only
`pending_g` — so a pending prefix survives an unrelated key such as `j`,
contradicting the claim. -/
theorem c8_counterexample :
    (((InteractiveState.new [[0]]).handle_key (.char 'y') .none).handle_key
        (.char 'j') .none).pending_y = true ∧
    (((InteractiveState.new [[0]]).handle_key (.char 'y') .none).handle_key
        (.char 'j') .none).pending_g = false ∧
    (((InteractiveState.new [[0]]).handle_key (.char 'y') .none).handle_key
        (.char 'j') .none).pending_yo = false := by
  decide

/-- C6: starting from an empty registry, a successful lock (`L`) stores
exactly the one interval `[off, off + size * count)`, and unlocking
(`U`) with the cursor on any byte `p` inside that interval restores the
empty registry. -/
theorem c6_lock_unlock_roundtrip
    (s s' : InteractiveState) (count p : Nat)
    (h0 : s.locked_fields = [])
    (hle : s.current_field_byte + s.current_type.byte_size.getD 1 * count
            ≤ (s.records.getD s.current_record []).length)
    (hp1 : s.current_field_byte ≤ p)
    (hp2 : p < s.current_field_byte + s.current_type.byte_size.getD 1 * count)
    (hs' : s'.locked_fields = (s.lock_current count).locked_fields)
    (hcur : s'.current_field_byte = p) :
    (s.lock_current count).locked_fields
      = [⟨s.current_field_byte, s.current_type.byte_size.getD 1 * count, s.current_type⟩] ∧
    s'.unlock_at_cursor.locked_fields = [] := by
  have hlock : (s.lock_current count).locked_fields
      = [⟨s.current_field_byte, s.current_type.byte_size.getD 1 * count, s.current_type⟩] := by
    simp only [InteractiveState.lock_current, h0, List.any_nil, Bool.false_eq_true, if_false]
    rw [if_neg (by omega)]
    simp [sortByOffset]
  refine ⟨hlock, ?_⟩
  simp only [InteractiveState.unlock_at_cursor, hs', hlock, hcur]
  simp [hp1, hp2]

/-- C6 witness: locking two `u8` fields at byte 0 of a four-byte record
and unlocking at the cursor empties the registry again. -/
theorem c6_witness :
    ((InteractiveState.new [[0, 0, 0, 0]]).lock_current 2).locked_fields
      = [⟨0, 2, .u8⟩] ∧
    ((InteractiveState.new [[0, 0, 0, 0]]).lock_current 2).unlock_at_cursor.locked_fields
      = [] :=
  c6_lock_unlock_roundtrip (InteractiveState.new [[0, 0, 0, 0]])
    ((InteractiveState.new [[0, 0, 0, 0]]).lock_current 2) 2 0
    (by decide) (by decide) (by decide) (by decide) rfl (by decide)

/-- C7: every record-cursor movement operation (`j`/`k`/Down/Up with any
count, Ctrl-d/Ctrl-u half-page moves, `gg`, `G`) preserves
`current_record ∈ [0, record_count)` and
`scroll_offset ≤ current_record < scroll_offset + visible_records`. -/
theorem c7_movement_invariant (s : InteractiveState) (count : Nat)
    (h : recordCursorInv s) :
    recordCursorInv (s.move_down count) ∧ recordCursorInv (s.move_up count) ∧
    recordCursorInv s.page_down ∧ recordCursorInv s.page_up ∧
    recordCursorInv s.jump_to_start ∧ recordCursorInv s.jump_to_end := by
  obtain ⟨h1, h2, h3⟩ := h
  refine ⟨?_, ?_, ?_, ?_, ?_, ?_⟩ <;>
    (simp only [recordCursorInv, InteractiveState.move_down, InteractiveState.move_up,
        InteractiveState.page_down, InteractiveState.page_up,
        InteractiveState.jump_to_start, InteractiveState.jump_to_end, Nat.min_def];
     first
       | (split_ifs <;> omega)
       | omega)

/-- Registry component of `lock_current`, written as one conditional:
the message construction is irrelevant to the locked-field list. -/
lemma lock_current_locked_fields (s : InteractiveState) (count : Nat) :
    (s.lock_current count).locked_fields =
      if (s.locked_fields.any fun f =>
          !(decide (s.current_field_byte + s.current_type.byte_size.getD 1 * count
              ≤ f.byte_offset) ||
            decide (f.byte_offset + f.byte_length ≤ s.current_field_byte))) = true then
        s.locked_fields
      else if (s.records.getD s.current_record []).length
          < s.current_field_byte + s.current_type.byte_size.getD 1 * count then
        s.locked_fields
      else
        sortByOffset (s.locked_fields ++
          [⟨s.current_field_byte, s.current_type.byte_size.getD 1 * count,
            s.current_type⟩]) := by
  simp only [InteractiveState.lock_current]
  split_ifs <;> rfl

/-- C1: a lock request is rejected without mutating the registry when
its half-open interval intersects an existing locked interval (the
source's `!(new_end <= other_start || new_start >= other_end)` test) or
when `offset + length` exceeds the current record's length; otherwise
the new field is inserted and the registry re-sorted by ascending
`byte_offset` (stated as: the result is a permutation of the old list
plus the new field, pairwise sorted by offset). -/
theorem c1_lock_spec (s : InteractiveState) (count : Nat) :
    ((∃ f ∈ s.locked_fields,
        f.byte_offset < s.current_field_byte + s.current_type.byte_size.getD 1 * count ∧
        s.current_field_byte < f.byte_offset + f.byte_length) ∨
      (s.records.getD s.current_record []).length
        < s.current_field_byte + s.current_type.byte_size.getD 1 * count →
      (s.lock_current count).locked_fields = s.locked_fields) ∧
    ((∀ f ∈ s.locked_fields,
        s.current_field_byte + s.current_type.byte_size.getD 1 * count ≤ f.byte_offset ∨
        f.byte_offset + f.byte_length ≤ s.current_field_byte) →
      s.current_field_byte + s.current_type.byte_size.getD 1 * count
        ≤ (s.records.getD s.current_record []).length →
      (s.lock_current count).locked_fields.Perm
        (s.locked_fields ++
          [⟨s.current_field_byte, s.current_type.byte_size.getD 1 * count, s.current_type⟩]) ∧
      (s.lock_current count).locked_fields.Pairwise lockedLe) := by
  rw [lock_current_locked_fields]
  split_ifs with hov hlen
  · refine ⟨fun _ => rfl, fun hno hle => absurd hov ?_⟩
    simp only [List.any_eq_true, Bool.not_eq_true', Bool.or_eq_false_iff,
      decide_eq_false_iff_not, not_le, not_exists]
    intro f
    by_cases hf : f ∈ s.locked_fields
    · intro _
      have := hno f hf
      omega
    · intro h; exact absurd h.1 hf
  · refine ⟨fun _ => rfl, fun _ hle => absurd hlen (by omega)⟩
  · constructor
    · intro h
      rcases h with hex | hlt
      · exfalso
        apply hov
        simp only [List.any_eq_true, Bool.not_eq_true', Bool.or_eq_false_iff,
          decide_eq_false_iff_not, not_le]
        obtain ⟨f, hf, h1, h2⟩ := hex
        exact ⟨f, hf, h1, h2⟩
      · exact absurd hlt hlen
    · intro _ _
      exact ⟨List.perm_insertionSort lockedLe _, List.sorted_insertionSort lockedLe _⟩

/-- C1 witness: a request overlapping the existing lock `[0, 2)` is
rejected unchanged; a disjoint request at byte 2 is inserted and the
result stays offset-sorted. -/
theorem c1_witness :
    (c1sReject.lock_current 1).locked_fields = c1sReject.locked_fields ∧
    (c1sInsert.lock_current 1).locked_fields.Perm
      (c1sInsert.locked_fields ++ [⟨2, 1, .u8⟩]) ∧
    (c1sInsert.lock_current 1).locked_fields.Pairwise lockedLe := by
  refine ⟨(c1_lock_spec c1sReject 1).1 (by decide), ?_, ?_⟩
  · exact ((c1_lock_spec c1sInsert 1).2 (by decide) (by decide)).1
  · exact ((c1_lock_spec c1sInsert 1).2 (by decide) (by decide)).2

/-- When every byte seen while the shift is still below 64 bits keeps
its continuation bit set, the varint loop ends without producing a
value. -/
lemma decodeVarintLoop_nonterm :
    ∀ (data : List Nat) (value j : Nat),
      (∀ x ∈ data.take (10 - j), x &&& 128 ≠ 0) →
      decodeVarintLoop data value (7 * j) = "" := by
  intro data
  induction data with
  | nil => intro value j _; rfl
  | cons b rest ih =>
    intro value j h
    by_cases hj : 64 ≤ 7 * j
    · simp only [decodeVarintLoop, if_pos hj]
    · have htake : (b :: rest).take (10 - j) = b :: rest.take (10 - (j + 1)) := by
        rcases hn : 10 - j with _ | n
        · omega
        · rw [List.take_succ_cons]
          have h2 : n = 10 - (j + 1) := by omega
          rw [h2]
      have hb : b &&& 128 ≠ 0 := by
        apply h; rw [htake]; exact List.mem_cons_self _ _
      simp only [decodeVarintLoop, if_neg hj]
      rw [if_neg hb]
      have h7 : 7 * j + 7 = 7 * (j + 1) := by ring
      rw [h7]
      apply ih
      intro x hx
      apply h
      rw [htake]
      exact List.mem_cons_of_mem _ hx

/-- Accumulating one truncated chunk: or-ing a disjoint shifted chunk
into an accumulator below `2 ^ k` equals 64-bit modular addition of the
unshifted chunk scaled by `2 ^ k`. -/
lemma orChunkMod (value c k : Nat) (hk : k ≤ 63) (hv : value < 2 ^ k) :
    value ||| ((c <<< k) % 2 ^ 64) = (value + 2 ^ k * c) % 2 ^ 64 := by
  rw [Nat.shiftLeft_eq]
  have hAM : 2 ^ k * 2 ^ (64 - k) = 2 ^ 64 := by
    rw [← pow_add]; congr 1; omega
  have hMpos : 0 < 2 ^ (64 - k) := Nat.pos_pow_of_pos _ (by omega)
  have hcdec := Nat.div_add_mod c (2 ^ (64 - k))
  have hmodlt : c % 2 ^ (64 - k) < 2 ^ (64 - k) := Nat.mod_lt _ hMpos
  have hLfrag : (c * 2 ^ k) % 2 ^ 64 = (c % 2 ^ (64 - k)) * 2 ^ k := by
    rw [← hAM, mul_comm (2 ^ k) (2 ^ (64 - k)), Nat.mul_mod_mul_right]
  have hor : value ||| ((c % 2 ^ (64 - k)) * 2 ^ k)
      = value + (c % 2 ^ (64 - k)) * 2 ^ k := by
    have h := Nat.mul_add_lt_is_or (i := k) hv (c % 2 ^ (64 - k))
    rw [Nat.or_comm] at h
    calc value ||| (c % 2 ^ (64 - k)) * 2 ^ k
        = value ||| 2 ^ k * (c % 2 ^ (64 - k)) := by rw [mul_comm]
      _ = 2 ^ k * (c % 2 ^ (64 - k)) + value := h.symm
      _ = value + (c % 2 ^ (64 - k)) * 2 ^ k := by ring
  have hlt : value + (c % 2 ^ (64 - k)) * 2 ^ k < 2 ^ 64 := by
    have h1 : (c % 2 ^ (64 - k)) * 2 ^ k + 2 ^ k ≤ 2 ^ (64 - k) * 2 ^ k := by
      calc (c % 2 ^ (64 - k)) * 2 ^ k + 2 ^ k
          = (c % 2 ^ (64 - k) + 1) * 2 ^ k := by ring
        _ ≤ 2 ^ (64 - k) * 2 ^ k := Nat.mul_le_mul_right _ hmodlt
    have h2 : 2 ^ (64 - k) * 2 ^ k = 2 ^ 64 := by rw [mul_comm]; exact hAM
    omega
  obtain ⟨q, hq⟩ : ∃ q, value + 2 ^ k * c
      = value + (c % 2 ^ (64 - k)) * 2 ^ k + q * 2 ^ 64 := by
    refine ⟨c / 2 ^ (64 - k), ?_⟩
    have h3 : 2 ^ k * c
        = 2 ^ k * (2 ^ (64 - k) * (c / 2 ^ (64 - k))) + 2 ^ k * (c % 2 ^ (64 - k)) := by
      rw [← Nat.mul_add, hcdec]
    rw [h3, ← hAM]; ring
  rw [hLfrag, hor, hq, Nat.add_mul_mod_self_right, Nat.mod_eq_of_lt hlt]

/-- Correctness of the varint loop on a terminated byte sequence: with
the accumulator below the current bit position, the loop returns the
little-endian base-128 value of the consumed bytes (truncated to 64
bits), ignoring everything after the first terminating byte. -/
lemma decodeVarintLoop_term :
    ∀ (xs : List Nat) (b : Nat) (ys : List Nat) (value j : Nat),
      xs.length + j ≤ 9 → (∀ x ∈ xs, x &&& 128 ≠ 0) → b &&& 128 = 0 →
      value < 2 ^ (7 * j) →
      decodeVarintLoop (xs ++ b :: ys) value (7 * j)
        = toString ((value + 2 ^ (7 * j) * base128Value (xs ++ [b])) % 2 ^ 64) := by
  intro xs
  induction xs with
  | nil =>
    intro b ys value j hlen hxs hb hv
    have hj : ¬ 64 ≤ 7 * j := by omega
    simp only [List.nil_append, decodeVarintLoop, if_neg hj]
    rw [if_pos hb, orChunkMod value (b &&& 127) (7 * j) (by omega) hv]
    simp [base128Value]
  | cons x xs ih =>
    intro b ys value j hlen hxs hb hv
    have hlen' : xs.length + (j + 1) ≤ 9 := by
      simp only [List.length_cons] at hlen; omega
    have hj : ¬ 64 ≤ 7 * j := by omega
    have hx : x &&& 128 ≠ 0 := hxs x (List.mem_cons_self _ _)
    simp only [List.cons_append, decodeVarintLoop, if_neg hj]
    rw [if_neg hx, orChunkMod value (x &&& 127) (7 * j) (by omega) hv]
    have hxsmall : x &&& 127 ≤ 127 := Nat.and_le_right
    have hpow7 : (2 : Nat) ^ (7 * (j + 1)) = 2 ^ (7 * j) * 128 := by
      have h1 : 7 * (j + 1) = 7 * j + 7 := by ring
      rw [h1, pow_add]; norm_num
    have hv' : value + 2 ^ (7 * j) * (x &&& 127) < 2 ^ (7 * (j + 1)) := by
      have h1 : 2 ^ (7 * j) * (x &&& 127) ≤ 2 ^ (7 * j) * 127 :=
        Nat.mul_le_mul_left _ hxsmall
      omega
    have hsmall : value + 2 ^ (7 * j) * (x &&& 127) < 2 ^ 64 := by
      have h1 : (2 : Nat) ^ (7 * (j + 1)) ≤ 2 ^ 64 :=
        Nat.pow_le_pow_right (by omega) (by omega)
      omega
    rw [Nat.mod_eq_of_lt hsmall]
    have h7 : 7 * j + 7 = 7 * (j + 1) := by ring
    rw [h7]
    simp only [List.append_eq] at ih ⊢
    rw [ih b ys _ (j + 1) hlen'
      (fun y hy => hxs y (List.mem_cons_of_mem _ hy)) hb hv']
    congr 2
    simp only [List.cons_append, base128Value]
    rw [hpow7]
    ring

/-- C9: varint decoding is little-endian base-128 with the high bit as
continuation bit — it terminates on the first byte with the high bit
clear, accumulates the low seven bits of each byte at successive 7-bit
positions into a 64-bit (truncated) unsigned value, ignores bytes after
the terminator, and yields the empty string when no terminating byte
occurs before the shift passes 64 bits; `[0xAC, 0x02]` decodes to
`"300"` and ten all-continuation bytes decode to the empty string. -/
theorem c9_varint_spec :
    DataType.decode_varint [172, 2] = "300" ∧
    DataType.decode_varint (List.replicate 10 128) = "" ∧
    (∀ data : List Nat, (∀ x ∈ data.take 10, x &&& 128 ≠ 0) →
      DataType.decode_varint data = "") ∧
    (∀ xs b ys, xs.length ≤ 9 → (∀ x ∈ xs, x &&& 128 ≠ 0) → b &&& 128 = 0 →
      DataType.decode_varint (xs ++ b :: ys)
        = toString (base128Value (xs ++ [b]) % 2 ^ 64)) := by
  refine ⟨by decide, by decide, ?_, ?_⟩
  · intro data h
    have h0 := decodeVarintLoop_nonterm data 0 0 (by simpa using h)
    simpa [DataType.decode_varint] using h0
  · intro xs b ys hlen hxs hb
    have h0 := decodeVarintLoop_term xs b ys 0 0 (by omega) hxs hb (by norm_num)
    simpa [DataType.decode_varint] using h0

/-- C9 witness: the two-byte sequence `[0x81, 0x05]` terminated by a
low byte decodes through the general theorem to `641`, ignoring the
trailing byte. -/
theorem c9_witness :
    DataType.decode_varint [129, 5, 99] = toString (base128Value [129, 5] % 2 ^ 64) ∧
    toString (base128Value [129, 5] % 2 ^ 64) = "641" :=
  ⟨c9_varint_spec.2.2.2 [129] 5 [99] (by decide) (by decide) (by decide), by decide⟩

/-- When no line is bad, the preset parse loop succeeds and returns the
fields of every line with at least three tokens, in file order. -/
lemma parse_ok_of_good :
    ∀ lines : List String, (∀ l ∈ lines, ¬ badPresetLine l) →
      parse_preset_lines lines = .ok (goodPresetFields lines) := by
  intro lines
  induction lines with
  | nil => intro _; rfl
  | cons l rest ih =>
    intro h
    have hl : ¬ badPresetLine l := h l (List.mem_cons_self _ _)
    have hrest := ih fun l' hl' => h l' (List.mem_cons_of_mem _ hl')
    by_cases h3 : 3 ≤ (splitWhitespace l).length
    · rcases ho : parseUsize ((splitWhitespace l).getD 0 "") with _ | o
      · exact absurd ⟨h3, Or.inl ho⟩ hl
      rcases hn : parseUsize ((splitWhitespace l).getD 1 "") with _ | n
      · exact absurd ⟨h3, Or.inr (Or.inl hn)⟩ hl
      rcases ht : DataType.from_name ((splitWhitespace l).getD 2 "") with _ | t
      · exact absurd ⟨h3, Or.inr (Or.inr ht)⟩ hl
      simp only [List.getD_eq_getElem?_getD] at ho hn ht
      simp [parse_preset_lines, goodPresetFields, List.filterMap_cons, h3, ho, hn, ht,
        hrest, Except.map]
    · simp [parse_preset_lines, goodPresetFields, List.filterMap_cons, h3, hrest]

/-- Any bad line makes the preset parse loop fail with one of the
source's three error messages. -/
lemma parse_error_of_bad :
    ∀ lines : List String, (∃ l ∈ lines, badPresetLine l) →
      ∃ e, parse_preset_lines lines = .error e := by
  intro lines
  induction lines with
  | nil => rintro ⟨l, hmem, _⟩; cases hmem
  | cons l rest ih =>
    rintro ⟨l', hmem, hbad⟩
    by_cases h3 : 3 ≤ (splitWhitespace l).length
    · rcases ho : parseUsize ((splitWhitespace l).getD 0 "") with _ | o
      · exact ⟨"Invalid offset", by
          simp only [List.getD_eq_getElem?_getD] at ho
          simp [parse_preset_lines, h3, ho]⟩
      rcases hn : parseUsize ((splitWhitespace l).getD 1 "") with _ | n
      · exact ⟨"Invalid length", by
          simp only [List.getD_eq_getElem?_getD] at ho hn
          simp [parse_preset_lines, h3, ho, hn]⟩
      rcases ht : DataType.from_name ((splitWhitespace l).getD 2 "") with _ | t
      · exact ⟨"Invalid type", by
          simp only [List.getD_eq_getElem?_getD] at ho hn ht
          simp [parse_preset_lines, h3, ho, hn, ht]⟩
      · -- the head line parses, so the bad line is in the tail
        have hrest : ∃ l ∈ rest, badPresetLine l := by
          rcases List.mem_cons.mp hmem with rfl | hmem'
          · rcases hbad.2 with h | h | h
            · exact absurd ho (by rw [h]; simp)
            · exact absurd hn (by rw [h]; simp)
            · exact absurd ht (by rw [h]; simp)
          · exact ⟨l', hmem', hbad⟩
        obtain ⟨e, he⟩ := ih hrest
        refine ⟨e, ?_⟩
        simp only [List.getD_eq_getElem?_getD] at ho hn ht
        simp [parse_preset_lines, h3, ho, hn, ht, he, Except.map]
    · have hrest : ∃ l ∈ rest, badPresetLine l := by
        rcases List.mem_cons.mp hmem with rfl | hmem'
        · exact absurd hbad.1 h3
        · exact ⟨l', hmem', hbad⟩
      obtain ⟨e, he⟩ := ih hrest
      exact ⟨e, by simp [parse_preset_lines, h3, he]⟩

/-- C3: preset loading is all-or-nothing.  If any line with at least
three whitespace tokens has a non-integer offset, a non-integer length,
or an unknown type name, the parse fails and the prior registry is left
untouched; when every line parses, the registry is replaced wholesale by
the parsed fields, re-sorted by offset. -/
theorem c3_all_or_nothing (s : InteractiveState) (content : String) :
    ((∃ l ∈ rustLines content, badPresetLine l) →
      (∃ e, parse_preset_lines (rustLines content) = .error e) ∧
      (s.load_preset_content content).locked_fields = s.locked_fields) ∧
    ((∀ l ∈ rustLines content, ¬ badPresetLine l) →
      (s.load_preset_content content).locked_fields
        = sortByOffset (goodPresetFields (rustLines content))) := by
  constructor
  · intro h
    obtain ⟨e, he⟩ := parse_error_of_bad _ h
    exact ⟨⟨e, he⟩, by simp [InteractiveState.load_preset_content, he]⟩
  · intro h
    simp [InteractiveState.load_preset_content, parse_ok_of_good _ h]

/-- C3 witness: a file with a non-integer offset in its second line
leaves the registry empty (the first line is not committed), while a
fully-parsing file with a skippable two-token comment line replaces the
registry with both fields sorted by offset. -/
theorem c3_witness :
    (∃ e, parse_preset_lines (rustLines "0 1 u8\nx 1 u8") = .error e) ∧
    ((InteractiveState.new []).load_preset_content "0 1 u8\nx 1 u8").locked_fields = [] ∧
    ((InteractiveState.new []).load_preset_content
        "# c\n2 2 u16le\n0 1 u8").locked_fields = [⟨0, 1, .u8⟩, ⟨2, 2, .u16le⟩] := by
  refine ⟨((c3_all_or_nothing (InteractiveState.new []) "0 1 u8\nx 1 u8").1 (by decide)).1,
    ((c3_all_or_nothing (InteractiveState.new []) "0 1 u8\nx 1 u8").1 (by decide)).2, ?_⟩
  rw [(c3_all_or_nothing (InteractiveState.new []) "# c\n2 2 u16le\n0 1 u8").2 (by decide)]
  decide

lemma length_bumpTable (t : List (List Nat)) (pos b : Nat) :
    (bumpTable t pos b).length = t.length := by
  simp [bumpTable]

lemma rows_bumpTable (t : List (List Nat)) (pos b : Nat)
    (h : ∀ row ∈ t, row.length = 256) (hb : b < 256) :
    ∀ row ∈ bumpTable t pos b, row.length = 256 := by
  intro row hrow
  by_cases hp : pos < t.length
  · rcases List.mem_or_eq_of_mem_set hrow with hmem | rfl
    · exact h _ hmem
    · have hrowmem : t.getD pos [] ∈ t := by
        rw [List.getD_eq_getElem?_getD, List.getElem?_eq_getElem hp]
        exact List.getElem_mem ..
      have hlen := h _ hrowmem
      simp only [bumpPos, List.length_set]
      exact hlen
  · rw [bumpTable, List.set_eq_of_length_le (by omega)] at hrow
    exact h _ hrow

lemma getEntry_bumpTable (t : List (List Nat)) (q x p b : Nat)
    (hrows : ∀ row ∈ t, row.length = 256) (hb : b < 256) :
    getEntry (bumpTable t q x) p b
      = getEntry t p b + if p = q ∧ q < t.length ∧ b = x then 1 else 0 := by
  simp only [getEntry, bumpTable, bumpPos, List.getD_eq_getElem?_getD]
  by_cases hq : q < t.length
  · by_cases hpq : p = q
    · subst hpq
      have hrowmem : t[p]?.getD ([] : List Nat) ∈ t := by
        rw [List.getElem?_eq_getElem hq, Option.getD_some]
        exact List.getElem_mem ..
      have hrowlen : (t[p]?.getD ([] : List Nat)).length = 256 := hrows _ hrowmem
      rw [List.getElem?_set_self hq, Option.getD_some]
      by_cases hbx : b = x
      · subst hbx
        rw [List.getElem?_set_self (by omega), Option.getD_some,
          if_pos ⟨rfl, hq, rfl⟩]
      · rw [List.getElem?_set_ne (show b ≠ x from hbx).symm,
          if_neg (show ¬(p = p ∧ p < t.length ∧ b = x) from fun h => hbx h.2.2),
          Nat.add_zero]
    · rw [List.getElem?_set_ne (show q ≠ p from fun h => hpq h.symm),
        if_neg (show ¬(p = q ∧ q < t.length ∧ b = x) from fun h => hpq h.1),
        Nat.add_zero]
  · rw [List.set_eq_of_length_le (by omega),
      if_neg (show ¬(p = q ∧ q < t.length ∧ b = x) from fun h => hq h.2.1),
      Nat.add_zero]

lemma length_addRecord (r : List Nat) :
    ∀ (t : List (List Nat)) (pos : Nat), (addRecord t r pos).length = t.length := by
  induction r with
  | nil => intro t pos; rfl
  | cons x rest ih => intro t pos; rw [addRecord, ih, length_bumpTable]

lemma rows_addRecord (r : List Nat) :
    ∀ (t : List (List Nat)) (pos : Nat),
      (∀ row ∈ t, row.length = 256) → (∀ x ∈ r, x < 256) →
      ∀ row ∈ addRecord t r pos, row.length = 256 := by
  induction r with
  | nil => intro t pos h _; exact h
  | cons x rest ih =>
    intro t pos h hx
    exact ih _ _ (rows_bumpTable t pos x h (hx x (List.mem_cons_self _ _)))
      fun y hy => hx y (List.mem_cons_of_mem _ hy)

lemma getEntry_addRecord (r : List Nat) :
    ∀ (t : List (List Nat)) (pos0 p b : Nat),
      (∀ row ∈ t, row.length = 256) → b < 256 → (∀ x ∈ r, x < 256) →
      getEntry (addRecord t r pos0) p b
        = getEntry t p b +
          if p < t.length ∧ pos0 ≤ p ∧ r[p - pos0]? = some b then 1 else 0 := by
  induction r with
  | nil =>
    intro t pos0 p b _ _ _
    simp [addRecord]
  | cons x rest ih =>
    intro t pos0 p b hrows hb hxs
    rw [addRecord, ih (bumpTable t pos0 x) (pos0 + 1) p b
        (rows_bumpTable t pos0 x hrows (hxs x (List.mem_cons_self _ _)))
        hb (fun y hy => hxs y (List.mem_cons_of_mem _ hy)),
      getEntry_bumpTable t pos0 x p b hrows hb, length_bumpTable]
    have key : (if p = pos0 ∧ pos0 < t.length ∧ b = x then 1 else 0)
        + (if p < t.length ∧ pos0 + 1 ≤ p ∧ rest[p - (pos0 + 1)]? = some b then 1 else 0)
        = (if p < t.length ∧ pos0 ≤ p ∧ (x :: rest)[p - pos0]? = some b then 1 else 0) := by
      rcases Nat.lt_trichotomy p pos0 with hlt | heq | hgt
      · rw [if_neg (show ¬(p = pos0 ∧ pos0 < t.length ∧ b = x) from
            fun h => absurd h.1 (by omega)),
          if_neg (show ¬(p < t.length ∧ pos0 + 1 ≤ p ∧
              rest[p - (pos0 + 1)]? = some b) from fun h => absurd h.2.1 (by omega)),
          if_neg (show ¬(p < t.length ∧ pos0 ≤ p ∧
              (x :: rest)[p - pos0]? = some b) from fun h => absurd h.2.1 (by omega))]
      · subst heq
        simp only [Nat.sub_self, List.getElem?_cons_zero]
        rw [if_neg (show ¬(p < t.length ∧ p + 1 ≤ p ∧
            rest[p - (p + 1)]? = some b) from fun h => absurd h.2.1 (by omega)),
          Nat.add_zero]
        by_cases hbx : b = x
        · subst hbx
          simp
        · have hxb : ¬ x = b := fun h => hbx h.symm
          simp [hbx, hxb]
      · have hidx : p - pos0 = (p - (pos0 + 1)) + 1 := by omega
        rw [hidx]
        simp only [List.getElem?_cons_succ]
        rw [if_neg (show ¬(p = pos0 ∧ pos0 < t.length ∧ b = x) from
            fun h => absurd h.1 (by omega)),
          Nat.zero_add]
        by_cases hc : p < t.length ∧ pos0 + 1 ≤ p ∧ rest[p - (pos0 + 1)]? = some b
        · rw [if_pos hc, if_pos ⟨hc.1, by omega, hc.2.2⟩]
        · rw [if_neg hc, if_neg (show ¬(p < t.length ∧ pos0 ≤ p ∧
              rest[p - (pos0 + 1)]? = some b) from
              fun h => hc ⟨h.1, by omega, h.2.2⟩)]
    rw [Nat.add_assoc, key]

lemma length_freqFold (recs : List (List Nat)) :
    ∀ t : List (List Nat),
      (recs.foldl (fun t r => addRecord t r 0) t).length = t.length := by
  induction recs with
  | nil => intro t; rfl
  | cons r rest ih => intro t; rw [List.foldl_cons, ih, length_addRecord]

lemma getEntry_freqFold (recs : List (List Nat)) :
    ∀ (t : List (List Nat)) (p b : Nat),
      (∀ row ∈ t, row.length = 256) → b < 256 →
      (∀ r ∈ recs, ∀ x ∈ r, x < 256) → p < t.length →
      getEntry (recs.foldl (fun t r => addRecord t r 0) t) p b
        = getEntry t p b + countOccur recs p b := by
  induction recs with
  | nil => intro t p b _ _ _ _; simp [countOccur]
  | cons r rest ih =>
    intro t p b hrows hb hbytes hp
    rw [List.foldl_cons,
      ih (addRecord t r 0) p b
        (rows_addRecord r t 0 hrows (hbytes r (List.mem_cons_self _ _)))
        hb (fun r' hr' => hbytes r' (List.mem_cons_of_mem _ hr'))
        (by rw [length_addRecord]; exact hp),
      getEntry_addRecord r t 0 p b hrows hb (hbytes r (List.mem_cons_self _ _))]
    have hsplit : countOccur (r :: rest) p b
        = (if r[p]? = some b then 1 else 0) + countOccur rest p b := by
      simp only [countOccur, List.filter_cons]
      split_ifs <;> simp_all <;> omega
    rw [hsplit]
    have hcond : (p < t.length ∧ 0 ≤ p ∧ r[p - 0]? = some b) ↔ r[p]? = some b := by
      constructor
      · rintro ⟨-, -, h⟩; simpa using h
      · intro h; exact ⟨hp, Nat.zero_le _, by simpa using h⟩
    by_cases hcase : r[p]? = some b
    · rw [if_pos (hcond.mpr hcase), if_pos hcase]; omega
    · rw [if_neg (fun h => hcase (hcond.mp h)), if_neg hcase]; omega

lemma length_freqTable (recs : List (List Nat)) :
    (freqTable recs).length = maxRecordLen recs := by
  rw [freqTable, length_freqFold, List.length_replicate]

lemma le_maxRecordLen (recs : List (List Nat)) (r : List Nat) (h : r ∈ recs) :
    r.length ≤ maxRecordLen recs := by
  induction recs with
  | nil => cases h
  | cons a rest ih =>
    rcases List.mem_cons.mp h with rfl | hmem
    · exact Nat.le_max_left _ _
    · exact Nat.le_trans (ih hmem) (Nat.le_max_right _ _)

/-- Correctness of `compute_frequencies`: each table cell counts the
records carrying that byte value at that position. -/
lemma freqTable_entry (recs : List (List Nat)) (p b : Nat)
    (hb : b < 256) (hbytes : ∀ r ∈ recs, ∀ x ∈ r, x < 256)
    (hp : p < maxRecordLen recs) :
    getEntry (freqTable recs) p b = countOccur recs p b := by
  rw [freqTable,
    getEntry_freqFold recs _ p b
      (fun row hrow => by rw [List.eq_of_mem_replicate hrow, List.length_replicate])
      hb hbytes (by rwa [List.length_replicate])]
  have hzero : getEntry (List.replicate (maxRecordLen recs) (List.replicate 256 0)) p b
      = 0 := by
    unfold getEntry
    simp only [List.getD_eq_getElem?_getD]
    rw [List.getElem?_replicate_of_lt hp, Option.getD_some,
      List.getElem?_replicate, if_pos hb, Option.getD_some]
  rw [hzero, Nat.zero_add]

lemma pos_lt_maxRecordLen (recs : List (List Nat)) (pos b : Nat)
    (h : 0 < countOccur recs pos b) : pos < maxRecordLen recs := by
  obtain ⟨r, hr⟩ := List.exists_mem_of_length_pos h
  have hmem := List.mem_filter.mp hr
  have hsome : r[pos]? = some b := by simpa using hmem.2
  obtain ⟨hlt, -⟩ := List.getElem?_eq_some.mp hsome
  exact Nat.lt_of_lt_of_le hlt (le_maxRecordLen recs r hmem.1)

set_option maxRecDepth 4096 in
/-- C5, counterexample: on `c5recs` (ten records), position 0 carries
`0x7E` in nine of ten records and is painted red (the tier-5, ≥80%
bucket), but position 1, whose most common value `0x01` appears in three
of ten records (30%), is painted cyan — the 20–39% tier-2 bucket — not
blue (the <20% tier-1 bucket) as the claim states. -/
theorem c5_counterexample :
    countOccur c5recs 0 126 = 9 ∧
    freqColorOf c5recs 0 126 = Color.red ∧
    countOccur c5recs 1 1 = 3 ∧
    (∀ v, v < 256 → countOccur c5recs 1 v ≤ 3) ∧
    freqColorOf c5recs 1 1 = Color.cyan ∧
    Color.cyan ≠ Color.blue := by
  refine ⟨by decide, by decide, by decide, ?_, by decide, by decide⟩
  decide

/-- C5, amended: with frequency mode on over any 10-record set of byte
records, a byte position where a value occurs in 9 of the 10 records is
colored tier-5 (the ≥80% bucket, red), and a byte position where the
most common value occurs in 3 of the 10 records is colored tier-2 (the
20–39% bucket, cyan) — not tier-1 — since percentage = 100 × count /
total-records with integer division gives 30. -/
theorem c5_frequency_tiers (recs : List (List Nat)) (pos b : Nat)
    (h10 : recs.length = 10) (hb : b < 256)
    (hbytes : ∀ r ∈ recs, ∀ x ∈ r, x < 256) :
    (countOccur recs pos b = 9 → freqColorOf recs pos b = Color.red) ∧
    (countOccur recs pos b = 3 → freqColorOf recs pos b = Color.cyan) := by
  constructor <;> intro hc <;>
    (have hpos : pos < maxRecordLen recs := pos_lt_maxRecordLen recs pos b (by omega);
     have hentry := freqTable_entry recs pos b hb hbytes hpos;
     simp only [getEntry] at hentry;
     simp only [freqColorOf, InteractiveState.compute_frequencies,
       InteractiveState.get_frequency_color, InteractiveState.new];
     rw [if_neg (by rw [length_freqTable]; omega)];
     simp only [hentry, hc, h10];
     decide)

/-- C5 witness: the concrete ten-record set `c5recs` instantiates both
tiers of the amended claim. -/
theorem c5_witness :
    freqColorOf c5recs 0 126 = Color.red ∧ freqColorOf c5recs 1 1 = Color.cyan :=
  ⟨(c5_frequency_tiers c5recs 0 126 (by decide) (by decide) (by decide)).1 (by decide),
   (c5_frequency_tiers c5recs 1 1 (by decide) (by decide) (by decide)).2 (by decide)⟩

/-- C7 witness: a three-record set, moving down five records from the
initial state. -/
theorem c7_witness :
    recordCursorInv ((InteractiveState.new [[0], [1], [2]]).move_down 5) ∧
    recordCursorInv ((InteractiveState.new [[0], [1], [2]]).move_up 5) ∧
    recordCursorInv (InteractiveState.new [[0], [1], [2]]).page_down ∧
    recordCursorInv (InteractiveState.new [[0], [1], [2]]).page_up ∧
    recordCursorInv (InteractiveState.new [[0], [1], [2]]).jump_to_start ∧
    recordCursorInv (InteractiveState.new [[0], [1], [2]]).jump_to_end :=
  c7_movement_invariant (InteractiveState.new [[0], [1], [2]]) 5 (by decide)

lemma prefixFlags_clear_pending (s : InteractiveState) :
    prefixFlags s.clear_pending = (false, false, false, false, false) := rfl

lemma prefixFlags_shift_offset_backward (s : InteractiveState) :
    prefixFlags s.shift_offset_backward = prefixFlags s := by
  unfold InteractiveState.shift_offset_backward; split_ifs <;> rfl

lemma prefixFlags_shift_offset_forward (s : InteractiveState) :
    prefixFlags s.shift_offset_forward = prefixFlags s := by
  simp only [InteractiveState.shift_offset_forward]; split_ifs <;> rfl

lemma prefixFlags_move_to_prev_field (s : InteractiveState) :
    prefixFlags s.move_to_prev_field = prefixFlags s := by
  unfold InteractiveState.move_to_prev_field; split_ifs <;> rfl

lemma prefixFlags_move_to_next_field (s : InteractiveState) :
    prefixFlags s.move_to_next_field = prefixFlags s := by
  unfold InteractiveState.move_to_next_field; split_ifs <;> rfl

lemma prefixFlags_lock_current (s : InteractiveState) (count : Nat) :
    prefixFlags (s.lock_current count) = prefixFlags s := by
  simp only [InteractiveState.lock_current]; split_ifs <;> rfl

lemma prefixFlags_unlock_at_cursor (s : InteractiveState) :
    prefixFlags s.unlock_at_cursor = prefixFlags s := by
  simp only [InteractiveState.unlock_at_cursor]; split_ifs <;> rfl

lemma handle_toggle_matched (s : InteractiveState) (t : ToggleTarget)
    (h : s.pending_yo = true ∨ s.pending_open_bracket = true ∨
      s.pending_close_bracket = true) :
    (s.handle_toggle t).1 = true ∧
    prefixFlags (s.handle_toggle t).2 = (false, false, false, false, false) := by
  cases t <;>
    (unfold InteractiveState.handle_toggle;
     split_ifs <;>
       simp_all [prefixFlags, InteractiveState.clear_pending,
         InteractiveState.toggleSet, InteractiveState.toggleGet])

lemma handle_toggle_unmatched (s : InteractiveState) (t : ToggleTarget)
    (h1 : s.pending_yo = false) (h2 : s.pending_open_bracket = false)
    (h3 : s.pending_close_bracket = false) :
    s.handle_toggle t = (false, s) := by
  unfold InteractiveState.handle_toggle
  simp [h1, h2, h3]

/-- C8, amended: the pending-prefix lifecycle as implemented.  The
colon, Tab, Shift-Tab, and `0`-with-a-pending-count keys leave every
pending prefix unchanged; the movement and lock keys (`j`/`k`/Down/Up,
Ctrl-d/Ctrl-u/PageDown/PageUp, `L`, `U`) clear only the pending-`g`
prefix, so a pending `y`/`yo`/`[`/`]` prefix survives them; `h`, `b`,
digits, `0` without a count, `$`, `G`, the toggle letters `f`/`w`/`l`,
and unbound keys clear every pending prefix; `y`, `[`, `]` establish
their own prefix after clearing the rest; `o` moves a pending `y` to
`yo` (leaving the other flags as they were) and otherwise clears all;
`g` sets pending-`g` exactly when no toggle prefix and no pending-`g`
was active. -/
theorem c8_prefix_lifecycle (s : InteractiveState) (m : KeyModifiers) (c : Char) :
    (s.count_buffer ≠ "" →
      prefixFlags (s.handle_key (.char '0') .none) = prefixFlags s) ∧
    (s.count_buffer = "" →
      prefixFlags (s.handle_key (.char '0') .none) = (false, false, false, false, false)) ∧
    ('1' ≤ c → c ≤ '9' →
      prefixFlags (s.handle_key (.char c) .none) = (false, false, false, false, false)) ∧
    prefixFlags (s.handle_key (.char ':') m) = prefixFlags s ∧
    prefixFlags (s.handle_key .tab .none) = prefixFlags s ∧
    prefixFlags (s.handle_key .backTab m) = prefixFlags s ∧
    prefixFlags (s.handle_key (.char 'j') .none)
      = (false, s.pending_y, s.pending_yo, s.pending_open_bracket,
         s.pending_close_bracket) ∧
    prefixFlags (s.handle_key (.char 'k') .none)
      = (false, s.pending_y, s.pending_yo, s.pending_open_bracket,
         s.pending_close_bracket) ∧
    prefixFlags (s.handle_key .down m)
      = (false, s.pending_y, s.pending_yo, s.pending_open_bracket,
         s.pending_close_bracket) ∧
    prefixFlags (s.handle_key .up m)
      = (false, s.pending_y, s.pending_yo, s.pending_open_bracket,
         s.pending_close_bracket) ∧
    prefixFlags (s.handle_key .pageDown m)
      = (false, s.pending_y, s.pending_yo, s.pending_open_bracket,
         s.pending_close_bracket) ∧
    prefixFlags (s.handle_key .pageUp m)
      = (false, s.pending_y, s.pending_yo, s.pending_open_bracket,
         s.pending_close_bracket) ∧
    prefixFlags (s.handle_key (.char 'd') .control)
      = (false, s.pending_y, s.pending_yo, s.pending_open_bracket,
         s.pending_close_bracket) ∧
    prefixFlags (s.handle_key (.char 'u') .control)
      = (false, s.pending_y, s.pending_yo, s.pending_open_bracket,
         s.pending_close_bracket) ∧
    prefixFlags (s.handle_key (.char 'L') m)
      = (false, s.pending_y, s.pending_yo, s.pending_open_bracket,
         s.pending_close_bracket) ∧
    prefixFlags (s.handle_key (.char 'U') m)
      = (false, s.pending_y, s.pending_yo, s.pending_open_bracket,
         s.pending_close_bracket) ∧
    prefixFlags (s.handle_key (.char 'h') .none) = (false, false, false, false, false) ∧
    prefixFlags (s.handle_key (.char 'b') .none) = (false, false, false, false, false) ∧
    prefixFlags (s.handle_key (.char '$') .none) = (false, false, false, false, false) ∧
    prefixFlags (s.handle_key (.char 'G') m) = (false, false, false, false, false) ∧
    prefixFlags (s.handle_key (.char 'f') .none) = (false, false, false, false, false) ∧
    prefixFlags (s.handle_key (.char 'w') .none) = (false, false, false, false, false) ∧
    prefixFlags (s.handle_key (.char 'l') .none) = (false, false, false, false, false) ∧
    prefixFlags (s.handle_key .esc m) = (false, false, false, false, false) ∧
    prefixFlags (s.handle_key .enter m) = (false, false, false, false, false) ∧
    prefixFlags (s.handle_key .backspace m) = (false, false, false, false, false) ∧
    prefixFlags (s.handle_key (.char 'y') .none) = (false, true, false, false, false) ∧
    prefixFlags (s.handle_key (.char 'o') .none)
      = (if s.pending_y then
          (s.pending_g, false, true, s.pending_open_bracket, s.pending_close_bracket)
         else (false, false, false, false, false)) ∧
    prefixFlags (s.handle_key (.char '[') .none) = (false, false, false, true, false) ∧
    prefixFlags (s.handle_key (.char ']') .none) = (false, false, false, false, true) ∧
    prefixFlags (s.handle_key (.char 'g') .none)
      = (!(s.pending_yo || s.pending_open_bracket || s.pending_close_bracket ||
            s.pending_g), false, false, false, false) := by
  refine ⟨?_, ?_, ?_, rfl, rfl, rfl, rfl, rfl, rfl, rfl, rfl, rfl, rfl, rfl, ?_, ?_,
    ?_, ?_, rfl, rfl, ?_, ?_, ?_, rfl, rfl, rfl, rfl, ?_, rfl, rfl, ?_⟩
  · intro h
    show prefixFlags (if s.count_buffer ≠ "" then
        { s with count_buffer := s.count_buffer.push '0' }
      else { s.clear_pending with current_field := 0 }) = prefixFlags s
    rw [if_pos h]
    rfl
  · intro h
    show prefixFlags (if s.count_buffer ≠ "" then
        { s with count_buffer := s.count_buffer.push '0' }
      else { s.clear_pending with current_field := 0 })
      = (false, false, false, false, false)
    rw [if_neg (fun hne => hne h)]
    rfl
  · intro h1 h2
    have hc1 : ¬ c = ':' := fun h => by rw [h] at h2; exact absurd h2 (by decide)
    have hc2 : ¬ c = 'h' := fun h => by rw [h] at h2; exact absurd h2 (by decide)
    have hc3 : ¬ c = 'b' := fun h => by rw [h] at h2; exact absurd h2 (by decide)
    show prefixFlags (s.handle_char c .none) = _
    unfold InteractiveState.handle_char
    rw [if_neg hc1, if_neg (fun h => hc2 h.1), if_neg (fun h => hc3 h.1),
      if_pos ⟨⟨h1, h2⟩, rfl⟩]
    rfl
  · simp +decide only [InteractiveState.handle_key, InteractiveState.handle_char,
      if_true, if_false, false_and, true_and]
    rw [prefixFlags_lock_current]
    rfl
  · simp +decide only [InteractiveState.handle_key, InteractiveState.handle_char,
      if_true, if_false, false_and, true_and]
    rw [prefixFlags_unlock_at_cursor]
    rfl
  · simp +decide only [InteractiveState.handle_key, InteractiveState.handle_char,
      if_true, if_false, false_and, true_and]
    rw [prefixFlags_shift_offset_backward, prefixFlags_clear_pending]
  · simp +decide only [InteractiveState.handle_key, InteractiveState.handle_char,
      if_true, if_false, false_and, true_and]
    rw [prefixFlags_move_to_prev_field, prefixFlags_clear_pending]
  · simp +decide only [InteractiveState.handle_key, InteractiveState.handle_char,
      if_true, if_false, false_and, true_and]
    by_cases h : s.pending_yo = true ∨ s.pending_open_bracket = true ∨
      s.pending_close_bracket = true
    · obtain ⟨h1, h2⟩ := handle_toggle_matched s .frequency h
      rcases hp : s.handle_toggle .frequency with ⟨m', s'⟩
      rw [hp] at h1 h2
      dsimp only at h1 h2
      subst h1
      simp only [prefixFlags, Prod.mk.injEq] at h2
      obtain ⟨e1, e2, e3, e4, e5⟩ := h2
      simp only [hp, prefixFlags, Prod.mk.injEq, InteractiveState.compute_frequencies]
      split_ifs <;> simp_all
    · push_neg at h
      simp only [Bool.not_eq_true] at h
      rw [handle_toggle_unmatched s .frequency h.1 h.2.1 h.2.2]
      simp [prefixFlags, InteractiveState.clear_pending]
  · simp +decide only [InteractiveState.handle_key, InteractiveState.handle_char,
      if_true, if_false, false_and, true_and]
    by_cases h : s.pending_yo = true ∨ s.pending_open_bracket = true ∨
      s.pending_close_bracket = true
    · obtain ⟨h1, h2⟩ := handle_toggle_matched s .wrap h
      rcases hp : s.handle_toggle .wrap with ⟨m', s'⟩
      rw [hp] at h1 h2
      dsimp only at h1 h2
      subst h1
      simp only [prefixFlags, Prod.mk.injEq] at h2
      obtain ⟨e1, e2, e3, e4, e5⟩ := h2
      simp only [hp, prefixFlags, Prod.mk.injEq]
      simp_all
    · push_neg at h
      simp only [Bool.not_eq_true] at h
      rw [handle_toggle_unmatched s .wrap h.1 h.2.1 h.2.2]
      simp only [Bool.false_eq_true, if_false]
      rw [prefixFlags_move_to_next_field, prefixFlags_clear_pending]
  · simp +decide only [InteractiveState.handle_key, InteractiveState.handle_char,
      if_true, if_false, false_and, true_and]
    by_cases h : s.pending_yo = true ∨ s.pending_open_bracket = true ∨
      s.pending_close_bracket = true
    · obtain ⟨h1, h2⟩ := handle_toggle_matched s .showLocks h
      rcases hp : s.handle_toggle .showLocks with ⟨m', s'⟩
      rw [hp] at h1 h2
      dsimp only at h1 h2
      subst h1
      simp only [prefixFlags, Prod.mk.injEq] at h2
      obtain ⟨e1, e2, e3, e4, e5⟩ := h2
      simp only [hp, prefixFlags, Prod.mk.injEq]
      simp_all
    · push_neg at h
      simp only [Bool.not_eq_true] at h
      rw [handle_toggle_unmatched s .showLocks h.1 h.2.1 h.2.2]
      simp only [Bool.false_eq_true, if_false]
      rw [prefixFlags_shift_offset_forward, prefixFlags_clear_pending]
  · simp +decide only [InteractiveState.handle_key, InteractiveState.handle_char,
      if_true, if_false, false_and, true_and]
    cases hy : s.pending_y <;> simp [hy, prefixFlags, InteractiveState.clear_pending]
  · simp +decide only [InteractiveState.handle_key, InteractiveState.handle_char,
      if_true, if_false, false_and, true_and]
    by_cases h : s.pending_yo = true ∨ s.pending_open_bracket = true ∨
      s.pending_close_bracket = true
    · obtain ⟨h1, h2⟩ := handle_toggle_matched s .showGutter h
      rcases hp : s.handle_toggle .showGutter with ⟨m', s'⟩
      rw [hp] at h1 h2
      dsimp only at h1 h2
      subst h1
      simp only [prefixFlags, Prod.mk.injEq] at h2
      obtain ⟨e1, e2, e3, e4, e5⟩ := h2
      simp only [hp, prefixFlags, Prod.mk.injEq]
      rcases h with h | h | h <;> simp_all
    · push_neg at h
      simp only [Bool.not_eq_true] at h
      rw [handle_toggle_unmatched s .showGutter h.1 h.2.1 h.2.2]
      simp only [Bool.false_eq_true, if_false]
      cases hg : s.pending_g <;>
        simp [hg, h.1, h.2.1, h.2.2, prefixFlags, InteractiveState.clear_pending,
          InteractiveState.jump_to_start]

lemma pendingCount_congr (a b : InteractiveState) (h : prefixFlags a = prefixFlags b) :
    pendingCount a = pendingCount b := by
  simp only [prefixFlags, Prod.mk.injEq] at h
  simp only [pendingCount, h.1, h.2.1, h.2.2.1, h.2.2.2.1, h.2.2.2.2]

lemma pendingCount_eq_zero (a : InteractiveState)
    (h : prefixFlags a = (false, false, false, false, false)) : pendingCount a = 0 := by
  simp only [prefixFlags, Prod.mk.injEq] at h
  simp [pendingCount, h.1, h.2.1, h.2.2.1, h.2.2.2.1, h.2.2.2.2]

lemma pendingCount_clear (s : InteractiveState) : pendingCount s.clear_pending = 0 := rfl

/-- C8 witness: with a count pending, `0` preserves the prefix flags;
with the pending-`y` prefix set, the digit `5` clears it. -/
theorem c8_witness :
    prefixFlags (({ c8state with count_buffer := "1" }).handle_key (.char '0') .none)
      = prefixFlags { c8state with count_buffer := "1" } ∧
    prefixFlags (c8state.handle_key (.char '5') .none)
      = (false, false, false, false, false) :=
  ⟨(c8_prefix_lifecycle { c8state with count_buffer := "1" } .none '5').1 (by decide),
   (c8_prefix_lifecycle c8state .none '5').2.2.1 (by decide) (by decide)⟩

set_option maxHeartbeats 2000000 in
/-- C10: processing any single key event in normal mode preserves the
invariant that at most one of the five pending-prefix flags is set:
every transition that sets a flag first clears the others (or transfers
`y` to `yo`), so the flat boolean encoding behaves as a single sum
type. -/
theorem c10_pending_mutual_exclusion (s : InteractiveState) (code : KeyCode)
    (m : KeyModifiers) (h : pendingCount s ≤ 1) :
    pendingCount (s.handle_key code m) ≤ 1 := by
  cases code with
  | tab =>
    cases m with
    | none => exact h
    | control => simp [pendingCount, InteractiveState.handle_key,
        InteractiveState.clear_pending]
    | shift => simp [pendingCount, InteractiveState.handle_key,
        InteractiveState.clear_pending]
  | backTab => exact h
  | down =>
    simp only [pendingCount, InteractiveState.handle_key, InteractiveState.key_move_down,
      InteractiveState.move_down, Bool.toNat_false] at h ⊢
    omega
  | up =>
    simp only [pendingCount, InteractiveState.handle_key, InteractiveState.key_move_up,
      InteractiveState.move_up, Bool.toNat_false] at h ⊢
    omega
  | pageDown =>
    simp only [pendingCount, InteractiveState.handle_key, InteractiveState.key_page_down,
      InteractiveState.page_down, Bool.toNat_false] at h ⊢
    omega
  | pageUp =>
    simp only [pendingCount, InteractiveState.handle_key, InteractiveState.key_page_up,
      InteractiveState.page_up, Bool.toNat_false] at h ⊢
    omega
  | enter => simp [pendingCount, InteractiveState.handle_key,
      InteractiveState.clear_pending]
  | esc => simp [pendingCount, InteractiveState.handle_key,
      InteractiveState.clear_pending]
  | backspace => simp [pendingCount, InteractiveState.handle_key,
      InteractiveState.clear_pending]
  | char c =>
    show pendingCount (s.handle_char c m) ≤ 1
    unfold InteractiveState.handle_char
    by_cases k1 : c = ':'
    · rw [if_pos k1]; exact h
    rw [if_neg k1]
    by_cases k2 : c = 'h' ∧ m = KeyModifiers.none
    · rw [if_pos k2, pendingCount_congr _ _ (prefixFlags_shift_offset_backward _),
        pendingCount_clear]
      omega
    rw [if_neg k2]
    by_cases k3 : c = 'b' ∧ m = KeyModifiers.none
    · rw [if_pos k3, pendingCount_congr _ _ (prefixFlags_move_to_prev_field _),
        pendingCount_clear]
      omega
    rw [if_neg k3]
    by_cases k4 : ('1' ≤ c ∧ c ≤ '9') ∧ m = KeyModifiers.none
    · rw [if_pos k4]; simp [pendingCount, InteractiveState.clear_pending]
    rw [if_neg k4]
    by_cases k5 : c = '0' ∧ m = KeyModifiers.none
    · rw [if_pos k5]
      by_cases kb : s.count_buffer ≠ ""
      · rw [if_pos kb]; exact h
      · rw [if_neg kb]; simp [pendingCount, InteractiveState.clear_pending]
    rw [if_neg k5]
    by_cases k6 : c = '$' ∧ m = KeyModifiers.none
    · rw [if_pos k6]; simp [pendingCount, InteractiveState.clear_pending]
    rw [if_neg k6]
    by_cases k7 : c = 'j' ∧ m = KeyModifiers.none
    · rw [if_pos k7]
      simp only [pendingCount, InteractiveState.key_move_down,
        InteractiveState.move_down, Bool.toNat_false] at h ⊢
      omega
    rw [if_neg k7]
    by_cases k8 : c = 'k' ∧ m = KeyModifiers.none
    · rw [if_pos k8]
      simp only [pendingCount, InteractiveState.key_move_up,
        InteractiveState.move_up, Bool.toNat_false] at h ⊢
      omega
    rw [if_neg k8]
    by_cases k9 : c = 'd' ∧ m = KeyModifiers.control
    · rw [if_pos k9]
      simp only [pendingCount, InteractiveState.key_page_down,
        InteractiveState.page_down, Bool.toNat_false] at h ⊢
      omega
    rw [if_neg k9]
    by_cases k10 : c = 'u' ∧ m = KeyModifiers.control
    · rw [if_pos k10]
      simp only [pendingCount, InteractiveState.key_page_up,
        InteractiveState.page_up, Bool.toNat_false] at h ⊢
      omega
    rw [if_neg k10]
    by_cases k11 : c = 'L'
    · rw [if_pos k11]
      show pendingCount
        (({ { s with pending_g := false } with count_buffer := "" }).lock_current
          ({ s with pending_g := false }).get_count_value) ≤ 1
      rw [pendingCount_congr _ _ (prefixFlags_lock_current _ _)]
      simp only [pendingCount, Bool.toNat_false] at h ⊢
      omega
    rw [if_neg k11]
    by_cases k12 : c = 'U'
    · rw [if_pos k12]
      show pendingCount
        (({ s with pending_g := false, count_buffer := "" }).unlock_at_cursor) ≤ 1
      rw [pendingCount_congr _ _ (prefixFlags_unlock_at_cursor _)]
      simp only [pendingCount, Bool.toNat_false] at h ⊢
      omega
    rw [if_neg k12]
    by_cases k13 : c = 'G'
    · rw [if_pos k13]
      simp [pendingCount, InteractiveState.clear_pending, InteractiveState.jump_to_end]
    rw [if_neg k13]
    by_cases k14 : c = 'y' ∧ m = KeyModifiers.none
    · rw [if_pos k14]; simp [pendingCount, InteractiveState.clear_pending]
    rw [if_neg k14]
    by_cases k15 : c = 'o' ∧ m = KeyModifiers.none
    · rw [if_pos k15]
      by_cases hpy : s.pending_y = true
      · rw [if_pos hpy]
        simp only [hpy, pendingCount, Bool.toNat_false, Bool.toNat_true] at h ⊢
        omega
      · rw [if_neg hpy]; simp [pendingCount, InteractiveState.clear_pending]
    rw [if_neg k15]
    by_cases k16 : c = '[' ∧ m = KeyModifiers.none
    · rw [if_pos k16]; simp [pendingCount, InteractiveState.clear_pending]
    rw [if_neg k16]
    by_cases k17 : c = ']' ∧ m = KeyModifiers.none
    · rw [if_pos k17]; simp [pendingCount, InteractiveState.clear_pending]
    rw [if_neg k17]
    by_cases k18 : c = 'f' ∧ m = KeyModifiers.none
    · rw [if_pos k18]
      by_cases ht : s.pending_yo = true ∨ s.pending_open_bracket = true ∨
        s.pending_close_bracket = true
      · obtain ⟨h1, h2⟩ := handle_toggle_matched s .frequency ht
        rcases hp : s.handle_toggle .frequency with ⟨mt, s'⟩
        rw [hp] at h1 h2
        dsimp only at h1 h2
        subst h1
        have hz : pendingCount s' = 0 := pendingCount_eq_zero _ h2
        simp only [hp, eq_self_iff_true, if_true]
        have hcf : pendingCount s'.compute_frequencies = pendingCount s' := rfl
        split_ifs <;> omega
      · push_neg at ht
        simp only [Bool.not_eq_true] at ht
        rw [handle_toggle_unmatched s .frequency ht.1 ht.2.1 ht.2.2]
        simp [pendingCount, InteractiveState.clear_pending]
    rw [if_neg k18]
    by_cases k19 : c = 'w' ∧ m = KeyModifiers.none
    · rw [if_pos k19]
      by_cases ht : s.pending_yo = true ∨ s.pending_open_bracket = true ∨
        s.pending_close_bracket = true
      · obtain ⟨h1, h2⟩ := handle_toggle_matched s .wrap ht
        rcases hp : s.handle_toggle .wrap with ⟨mt, s'⟩
        rw [hp] at h1 h2
        dsimp only at h1 h2
        subst h1
        have hz : pendingCount s' = 0 := pendingCount_eq_zero _ h2
        simp only [hp, eq_self_iff_true, if_true]
        have hh : pendingCount { s' with horizontal_scroll := 0 } = pendingCount s' := rfl
        omega
      · push_neg at ht
        simp only [Bool.not_eq_true] at ht
        rw [handle_toggle_unmatched s .wrap ht.1 ht.2.1 ht.2.2]
        show pendingCount (s.clear_pending.move_to_next_field) ≤ 1
        rw [pendingCount_congr _ _ (prefixFlags_move_to_next_field _), pendingCount_clear]
        omega
    rw [if_neg k19]
    by_cases k20 : c = 'l' ∧ m = KeyModifiers.none
    · rw [if_pos k20]
      by_cases ht : s.pending_yo = true ∨ s.pending_open_bracket = true ∨
        s.pending_close_bracket = true
      · obtain ⟨h1, h2⟩ := handle_toggle_matched s .showLocks ht
        rcases hp : s.handle_toggle .showLocks with ⟨mt, s'⟩
        rw [hp] at h1 h2
        dsimp only at h1 h2
        subst h1
        have hz : pendingCount s' = 0 := pendingCount_eq_zero _ h2
        simp only [hp, eq_self_iff_true, if_true]
        omega
      · push_neg at ht
        simp only [Bool.not_eq_true] at ht
        rw [handle_toggle_unmatched s .showLocks ht.1 ht.2.1 ht.2.2]
        show pendingCount (s.clear_pending.shift_offset_forward) ≤ 1
        rw [pendingCount_congr _ _ (prefixFlags_shift_offset_forward _), pendingCount_clear]
        omega
    rw [if_neg k20]
    by_cases k21 : c = 'g' ∧ m = KeyModifiers.none
    · rw [if_pos k21]
      by_cases ht : s.pending_yo = true ∨ s.pending_open_bracket = true ∨
        s.pending_close_bracket = true
      · obtain ⟨h1, h2⟩ := handle_toggle_matched s .showGutter ht
        rcases hp : s.handle_toggle .showGutter with ⟨mt, s'⟩
        rw [hp] at h1 h2
        dsimp only at h1 h2
        subst h1
        have hz : pendingCount s' = 0 := pendingCount_eq_zero _ h2
        simp only [hp, eq_self_iff_true, if_true]
        omega
      · push_neg at ht
        simp only [Bool.not_eq_true] at ht
        rw [handle_toggle_unmatched s .showGutter ht.1 ht.2.1 ht.2.2]
        simp only [Bool.false_eq_true, if_false]
        cases hg : s.pending_g <;>
          simp [hg, pendingCount, InteractiveState.clear_pending,
            InteractiveState.jump_to_start]
    rw [if_neg k21]
    simp [pendingCount, InteractiveState.clear_pending]

/-- C10 witness: from the state with the pending-`y` prefix, pressing
`o` keeps at most one pending flag set. -/
theorem c10_witness :
    pendingCount (c8state.handle_key (.char 'o') .none) ≤ 1 :=
  c10_pending_mutual_exclusion c8state (.char 'o') .none (by decide)

end Linewise
